import Mathlib

/-!
Verification development for the translation-helps MCP proxy
(`src/translation_helps_mcp_proxy/mcp_proxy_server.py`).

The proxy routes MCP tool calls to fixed REST endpoints of an upstream
service and normalizes the heterogeneous JSON payloads the upstream
returns into a list of text blocks.  This file gives a shallow embedding
of the data model (JSON values, text blocks, tool descriptors) and of the
pure request/response logic of the source: the endpoint router inside
`_call_upstream`, the response normalizer inside `call_tool`, the tool
enable check, the catalog filter `_get_filtered_tools`, and the
exception-boundary behaviour of the two registered callbacks.
-/

/-- JSON values, as decoded by `response.json()` in the source.  Numbers are
modelled as integers (no claim in scope involves fractional numbers). -/
inductive Json where
  | null
  | bool (flag : Bool)
  | num (value : Int)
  | str (text : String)
  | arr (elems : List Json)
  | obj (fields : List (String × Json))
deriving Repr

mutual
/-- Structural equality on JSON values, modelling Python `==` on decoded
JSON data of matching types (the cross-type numeric coercions of Python
`==`, such as `1 == True`, are not exercised by any payload considered
here). -/
def jsonBEq : Json → Json → Bool
  | Json.null, Json.null => true
  | Json.bool a, Json.bool b => a == b
  | Json.num a, Json.num b => a == b
  | Json.str a, Json.str b => a == b
  | Json.arr a, Json.arr b => jsonListBEq a b
  | Json.obj a, Json.obj b => jsonFieldsBEq a b
  | _, _ => false

def jsonListBEq : List Json → List Json → Bool
  | u :: us, w :: ws => jsonBEq u w && jsonListBEq us ws
  | [], [] => true
  | _, _ => false

def jsonFieldsBEq : List (String × Json) → List (String × Json) → Bool
  | (k, u) :: us, (l, w) :: ws => k == l && jsonBEq u w && jsonFieldsBEq us ws
  | [], [] => true
  | _, _ => false
end

instance : BEq Json := ⟨jsonBEq⟩

/-- Python truthiness (`bool(x)`) of a decoded JSON value:
`None`, `False`, `0`, `""`, `[]` and `{}` are falsy. -/
def truthy : Json → Bool
  | Json.null => false
  | Json.bool b => b
  | Json.num n => n != 0
  | Json.str s => !s.isEmpty
  | Json.arr xs => !xs.isEmpty
  | Json.obj fs => !fs.isEmpty

/-- Lookup of a key in the field list of a JSON object (Python dict keys are
unique, so first-match lookup coincides with dict lookup). -/
def lookupField (fields : List (String × Json)) (key : String) : Option Json :=
  match fields with
  | [] => none
  | (k, v) :: rest => if k == key then some v else lookupField rest key

/-- Python `key in d` for a dict payload. -/
def hasKey (fields : List (String × Json)) (key : String) : Bool :=
  fields.any (fun f => f.1 == key)

/-- A single quote character, used when rendering Python string literals. -/
def squote : String := String.singleton (Char.ofNat 39)

mutual
/-- Python `repr()` of a decoded JSON value (approximation: strings are
rendered between single quotes without inner escaping; no claim in scope
depends on the repr of a container). -/
def pyRepr : Json → String
  | Json.null => "None"
  | Json.bool true => "True"
  | Json.bool false => "False"
  | Json.num n => toString n
  | Json.str s => squote ++ s ++ squote
  | Json.arr xs => "[" ++ String.intercalate ", " (pyReprList xs) ++ "]"
  | Json.obj fs => "\x7b" ++ String.intercalate ", " (pyReprFields fs) ++ "\x7d"

def pyReprList : List Json → List String
  | [] => []
  | x :: xs => pyRepr x :: pyReprList xs

def pyReprFields : List (String × Json) → List String
  | [] => []
  | (k, v) :: fs => (squote ++ k ++ squote ++ ": " ++ pyRepr v) :: pyReprFields fs
end

/-- Python `str()` of a decoded JSON value, as used by f-string
interpolation in the source. -/
def pyStr : Json → String
  | Json.str s => s
  | j => pyRepr j

/-- Escaping of a string for `json.dumps` output (covers the characters
appearing in payloads under consideration). -/
def escapeJsonChar (c : Char) : String :=
  if c == Char.ofNat 34 then "\\" ++ String.singleton (Char.ofNat 34)
  else if c == Char.ofNat 92 then "\\\\"
  else if c == Char.ofNat 10 then "\\n"
  else if c == Char.ofNat 13 then "\\r"
  else if c == Char.ofNat 9 then "\\t"
  else String.singleton c

def escapeJsonString (s : String) : String :=
  String.join (s.toList.map escapeJsonChar)

def spacesStr (n : Nat) : String :=
  String.mk (List.replicate n ' ')

mutual
/-- `json.dumps(value, indent=2)`, as used by the `result` and fallback
branches of the normalizer.  The numeric argument is the indentation of
the surrounding context. -/
def jsonDumpsAux : Nat → Json → String
  | _, Json.null => "null"
  | _, Json.bool true => "true"
  | _, Json.bool false => "false"
  | _, Json.num n => toString n
  | _, Json.str s =>
      String.singleton (Char.ofNat 34) ++ escapeJsonString s ++ String.singleton (Char.ofNat 34)
  | _, Json.arr [] => "[]"
  | ind, Json.arr (x :: xs) =>
      "[\n" ++ String.intercalate ",\n"
        (jsonDumpsList (ind + 2) (x :: xs)) ++ "\n" ++ spacesStr ind ++ "]"
  | _, Json.obj [] => "\x7b\x7d"
  | ind, Json.obj (f :: fs) =>
      "\x7b\n" ++ String.intercalate ",\n"
        (jsonDumpsFields (ind + 2) (f :: fs)) ++ "\n" ++ spacesStr ind ++ "\x7d"

def jsonDumpsList : Nat → List Json → List String
  | _, [] => []
  | ind, x :: xs => (spacesStr ind ++ jsonDumpsAux ind x) :: jsonDumpsList ind xs

def jsonDumpsFields : Nat → List (String × Json) → List String
  | _, [] => []
  | ind, (k, v) :: fs =>
      (spacesStr ind ++ String.singleton (Char.ofNat 34) ++ escapeJsonString k
        ++ String.singleton (Char.ofNat 34) ++ ": " ++ jsonDumpsAux ind v)
        :: jsonDumpsFields ind fs
end

def jsonDumps (j : Json) : String := jsonDumpsAux 0 j

/-- The atomic unit of a tool result; models `TextContent(type="text",
text=...)` from `mcp.types` (the `type` field is always the literal
`"text"` in the source, so only the text is carried). -/
structure TextBlock where
  text : String
deriving DecidableEq, Repr

/-! ## Endpoint Router (`_call_upstream`, tools/call branch) -/

/-- An upstream HTTP request as assembled by `_call_upstream`. -/
structure UpstreamRequest where
  httpMethod : String
  url : String
  queryParams : List (String × Json)
  body : Option Json
deriving Repr

/-- One step `if key in tool_args: query_params[key] = tool_args[key]` of
the source; insertion into an initially empty dict with distinct keys is
appending the pair. -/
def addParam (toolArgs : List (String × Json)) (key : String)
    (qp : List (String × Json)) : List (String × Json) :=
  match lookupField toolArgs key with
  | some v => qp ++ [(key, v)]
  | none => qp

/-- The `query_params = {}` block of a router branch: the listed keys are
probed in source order, each copied from `tool_args` when present. -/
def buildQuery (toolArgs : List (String × Json)) (keys : List String) :
    List (String × Json) :=
  keys.foldl (fun qp k => addParam toolArgs k qp) []

/-- The `tools/call` arm of `_call_upstream`: the if/elif chain on the tool
name (rendered as a match on string literals), each branch issuing a GET to
a fixed path under `base_url = upstream_url.replace("/api/mcp", "")` with
the admitted query parameters, and the fallback branch issuing a POST of
`{method, params}` to the MCP endpoint itself. -/
def routeToolCall (upstreamUrl : String) (toolName : String)
    (toolArgs : List (String × Json)) : UpstreamRequest :=
  let baseUrl := upstreamUrl.replace "/api/mcp" ""
  match toolName with
  | "fetch_scripture" =>
      { httpMethod := "GET", url := baseUrl ++ "/api/fetch-scripture",
        queryParams := buildQuery toolArgs ["reference", "language", "organization"],
        body := none }
  | "fetch_translation_notes" =>
      { httpMethod := "GET", url := baseUrl ++ "/api/translation-notes",
        queryParams := buildQuery toolArgs ["reference", "language", "organization"],
        body := none }
  | "fetch_translation_questions" =>
      { httpMethod := "GET", url := baseUrl ++ "/api/translation-questions",
        queryParams := buildQuery toolArgs ["reference", "language", "organization"],
        body := none }
  | "get_translation_word" =>
      { httpMethod := "GET", url := baseUrl ++ "/api/fetch-translation-words",
        queryParams := buildQuery toolArgs ["reference", "wordId", "language", "organization"],
        body := none }
  | "fetch_translation_words" =>
      { httpMethod := "GET", url := baseUrl ++ "/api/fetch-translation-words",
        queryParams := buildQuery toolArgs ["reference", "wordId", "language", "organization"],
        body := none }
  | "browse_translation_words" =>
      { httpMethod := "GET", url := baseUrl ++ "/api/browse-translation-words",
        queryParams := buildQuery toolArgs ["language", "organization", "category", "search", "limit"],
        body := none }
  | "get_context" =>
      { httpMethod := "GET", url := baseUrl ++ "/api/get-context",
        queryParams := buildQuery toolArgs ["reference", "language", "organization"],
        body := none }
  | "extract_references" =>
      { httpMethod := "GET", url := baseUrl ++ "/api/extract-references",
        queryParams := buildQuery toolArgs ["text", "includeContext"],
        body := none }
  | _ =>
      { httpMethod := "POST", url := upstreamUrl, queryParams := [],
        body := some (Json.obj
          [("method", Json.str "tools/call"),
           ("params", Json.obj
             [("name", Json.str toolName),
              ("arguments", Json.obj toolArgs)])]) }

/-- The lookup table of §4.1 of the specification: tool name, documented
endpoint path, admitted query-parameter names.  Stated from the spec, to
be compared with `routeToolCall`, which is translated from the source. -/
def documentedRouteTable : List (String × String × List String) :=
  [("fetch_scripture", "/api/fetch-scripture", ["reference", "language", "organization"]),
   ("fetch_translation_notes", "/api/translation-notes", ["reference", "language", "organization"]),
   ("fetch_translation_questions", "/api/translation-questions", ["reference", "language", "organization"]),
   ("get_translation_word", "/api/fetch-translation-words", ["reference", "wordId", "language", "organization"]),
   ("fetch_translation_words", "/api/fetch-translation-words", ["reference", "wordId", "language", "organization"]),
   ("browse_translation_words", "/api/browse-translation-words", ["language", "organization", "category", "search", "limit"]),
   ("get_context", "/api/get-context", ["reference", "language", "organization"]),
   ("extract_references", "/api/extract-references", ["text", "includeContext"])]

/-! ## Python access primitives used by the normalizer

The normalizer runs inside the `try` of `call_tool`; a raised Python
exception is modelled as `Except.error` and is converted to an error
text block at the callback boundary (see `callTool`). -/

/-- Python `d[key]` on a dict payload: `KeyError` when absent. -/
def pyIndexField (fields : List (String × Json)) (key : String) :
    Except String Json :=
  match lookupField fields key with
  | some v => Except.ok v
  | none => Except.error ("KeyError: " ++ key)

/-- Python `x.get(key)` : `None` default on a dict, `AttributeError` when
the receiver is not a dict. -/
def pyGetAttr (j : Json) (key : String) : Except String Json :=
  match j with
  | Json.obj fs => Except.ok ((lookupField fs key).getD Json.null)
  | _ => Except.error "AttributeError: no attribute get"

/-- Python `x.get(key, default)` with an explicit default. -/
def pyGetAttrD (j : Json) (key : String) (dflt : Json) : Except String Json :=
  match j with
  | Json.obj fs => Except.ok ((lookupField fs key).getD dflt)
  | _ => Except.error "AttributeError: no attribute get"

/-- Python iteration (`for x in v`): lists yield their elements, strings
their characters, dicts their keys; other values raise `TypeError`. -/
def pyIterate : Json → Except String (List Json)
  | Json.arr xs => Except.ok xs
  | Json.str s => Except.ok (s.toList.map (fun c => Json.str (String.singleton c)))
  | Json.obj fs => Except.ok (fs.map (fun f => Json.str f.1))
  | _ => Except.error "TypeError: not iterable"

/-- Validation of the `text` field of `TextContent` (a pydantic `str`
field: a non-string value raises a validation error). -/
def asTextStr : Json → Except String String
  | Json.str s => Except.ok s
  | _ => Except.error "ValidationError: text must be a string"

/-- Python `a or b` on decoded JSON values: the first operand when truthy,
else the second. -/
def pyOrJ (a b : Json) : Json :=
  if truthy a then a else b

/-! ## Response Normalizer (`call_tool`, response-shape chain) -/

/-- The loop of the `content` branch: keep items whose `type == "text"`,
emitting their `text` field (`item["text"]`, which raises when absent). -/
def contentItems : List Json → Except String (List TextBlock)
  | [] => Except.ok []
  | item :: rest => do
      let ty ← pyGetAttr item "type"
      if ty == Json.str "text" then
        let t ← (match item with
          | Json.obj fs => pyIndexField fs "text"
          | _ => Except.error "TypeError: not subscriptable")
        let s ← asTextStr t
        let bs ← contentItems rest
        Except.ok (TextBlock.mk s :: bs)
      else
        contentItems rest

/-- Shape 1, `content`: an already MCP-like list of items. -/
def normalizeContentVal (v : Json) : Except String (List TextBlock) := do
  let items ← pyIterate v
  let blocks ← contentItems items
  Except.ok (if blocks.isEmpty then [TextBlock.mk "Empty response"] else blocks)

def normalizeContent (resp : List (String × Json)) :
    Except String (List TextBlock) := do
  let v ← pyIndexField resp "content"
  normalizeContentVal v

/-- One scripture entry: `text` then, when truthy, ` (translation)`. -/
def scriptureEntry (sc : Json) : Except String String := do
  let t ← pyGetAttrD sc "text" (Json.str "")
  let tr ← pyGetAttrD sc "translation" (Json.str "")
  Except.ok (pyStr t ++ (if truthy tr then " (" ++ pyStr tr ++ ")" else ""))

def scriptureParts : List Json → Except String (List String)
  | [] => Except.ok []
  | sc :: rest => do
      let e ← scriptureEntry sc
      let es ← scriptureParts rest
      Except.ok (e :: es)

/-- Shape 2, `scripture`: entries joined with a blank line; an empty (or
otherwise falsy) list yields the fixed no-scripture block. -/
def normalizeScriptureVal (v : Json) : Except String (List TextBlock) :=
  if truthy v then do
    let items ← pyIterate v
    let parts ← scriptureParts items
    Except.ok [TextBlock.mk (String.intercalate "\n\n" parts)]
  else
    Except.ok [TextBlock.mk "No scripture text found"]

def normalizeScripture (resp : List (String × Json)) :
    Except String (List TextBlock) := do
  let v ← pyIndexField resp "scripture"
  normalizeScriptureVal v

/-- The note list selected by the `notes` branch:
`response.get("notes") or response.get("verseNotes") or
response.get("items", [])` — Python `or` selects the first TRUTHY value,
not the first present key. -/
def selectedNotes (resp : List (String × Json)) : Json :=
  pyOrJ ((lookupField resp "notes").getD Json.null)
    (pyOrJ ((lookupField resp "verseNotes").getD Json.null)
      ((lookupField resp "items").getD (Json.arr [])))

/-- `note.get("Note") or note.get("note") or note.get("text") or
note.get("content") or str(note)`, rendered by an f-string. -/
def noteContent (note : Json) : Except String String := do
  let a ← pyGetAttr note "Note"
  let b ← pyGetAttr note "note"
  let c ← pyGetAttr note "text"
  let d ← pyGetAttr note "content"
  Except.ok (pyStr (pyOrJ a (pyOrJ b (pyOrJ c (pyOrJ d (Json.str (pyStr note)))))))

/-- The numbered-list loop of the notes branch (`i` starts at 0,
lines are rendered `{i + 1}. {note_content}` followed by a blank line). -/
def notesLines (i : Nat) : List Json → Except String String
  | [] => Except.ok ""
  | note :: rest => do
      let c ← noteContent note
      let restS ← notesLines (i + 1) rest
      Except.ok (toString (i + 1) ++ ". " ++ c ++ "\n\n" ++ restS)

/-- The body of shape 3 once the note list is selected. -/
def renderNotes (arguments : List (String × Json)) (notes : Json) :
    Except String (List TextBlock) :=
  if truthy notes then do
    let items ← pyIterate notes
    let body ← notesLines 0 items
    Except.ok [TextBlock.mk ("Translation Notes for "
      ++ pyStr ((lookupField arguments "reference").getD (Json.str "Reference"))
      ++ ":\n\n" ++ body)]
  else
    Except.ok [TextBlock.mk "No translation notes found for this reference."]

def normalizeNotes (arguments resp : List (String × Json)) :
    Except String (List TextBlock) :=
  renderNotes arguments (selectedNotes resp)

/-- One word entry of shape 4. -/
def wordEntry (w : Json) : Except String String := do
  let t ← pyGetAttr w "term"
  let n ← pyGetAttr w "name"
  let d ← pyGetAttr w "definition"
  let c ← pyGetAttr w "content"
  let term := pyOrJ t (pyOrJ n (Json.str "Unknown Term"))
  let defn := pyOrJ d (pyOrJ c (Json.str "No definition available"))
  Except.ok ("**" ++ pyStr term ++ "**\n" ++ pyStr defn ++ "\n\n")

def wordsLines : List Json → Except String String
  | [] => Except.ok ""
  | w :: rest => do
      let e ← wordEntry w
      let es ← wordsLines rest
      Except.ok (e ++ es)

/-- Shape 4, `words`. -/
def normalizeWordsVal (arguments : List (String × Json)) (v : Json) :
    Except String (List TextBlock) :=
  if truthy v then do
    let items ← pyIterate v
    let body ← wordsLines items
    Except.ok [TextBlock.mk ("Translation Words for "
      ++ pyStr ((lookupField arguments "reference").getD (Json.str "Reference"))
      ++ ":\n\n" ++ body)]
  else
    Except.ok [TextBlock.mk "No translation words found for this reference."]

def normalizeWords (arguments resp : List (String × Json)) :
    Except String (List TextBlock) := do
  let v ← pyIndexField resp "words"
  normalizeWordsVal arguments v

/-- Shape 5, single `term`/`definition` pair. -/
def normalizeTermDef (resp : List (String × Json)) :
    Except String (List TextBlock) := do
  let t ← pyIndexField resp "term"
  let d ← pyIndexField resp "definition"
  Except.ok [TextBlock.mk ("**" ++ pyStr t ++ "**\n" ++ pyStr d)]

/-- One question entry of shape 6. -/
def questionEntry (i : Nat) (q : Json) : Except String String := do
  let qa ← pyGetAttr q "question"
  let qb ← pyGetAttr q "Question"
  let aa ← pyGetAttr q "answer"
  let ab ← pyGetAttr q "Answer"
  let question := pyOrJ qa (pyOrJ qb (Json.str "No question"))
  let answer := pyOrJ aa (pyOrJ ab (Json.str "No answer"))
  Except.ok ("Q" ++ toString (i + 1) ++ ": " ++ pyStr question
    ++ "\nA: " ++ pyStr answer ++ "\n\n")

def questionsLines (i : Nat) : List Json → Except String String
  | [] => Except.ok ""
  | q :: rest => do
      let e ← questionEntry i q
      let es ← questionsLines (i + 1) rest
      Except.ok (e ++ es)

/-- Shape 6, `questions`. -/
def normalizeQuestionsVal (arguments : List (String × Json)) (v : Json) :
    Except String (List TextBlock) :=
  if truthy v then do
    let items ← pyIterate v
    let body ← questionsLines 0 items
    Except.ok [TextBlock.mk ("Translation Questions for "
      ++ pyStr ((lookupField arguments "reference").getD (Json.str "Reference"))
      ++ ":\n\n" ++ body)]
  else
    Except.ok [TextBlock.mk "No translation questions found for this reference."]

def normalizeQuestions (arguments resp : List (String × Json)) :
    Except String (List TextBlock) := do
  let v ← pyIndexField resp "questions"
  normalizeQuestionsVal arguments v

/-- Shape 7, `result`: pretty JSON for a dict, `str()` otherwise. -/
def normalizeResult (resp : List (String × Json)) :
    Except String (List TextBlock) := do
  let r ← pyIndexField resp "result"
  Except.ok [TextBlock.mk (match r with
    | Json.obj _ => jsonDumps r
    | v => pyStr v)]

/-- The response-shape dispatch of `call_tool` (lines 146-226 of the
source): the eight shapes are probed by key presence in this fixed
order, the first match alone producing the output. -/
def normalizeResponse (arguments resp : List (String × Json)) :
    Except String (List TextBlock) :=
  if hasKey resp "content" then normalizeContent resp
  else if hasKey resp "scripture" then normalizeScripture resp
  else if hasKey resp "notes" || hasKey resp "verseNotes" || hasKey resp "items" then
    normalizeNotes arguments resp
  else if hasKey resp "words" then normalizeWords arguments resp
  else if hasKey resp "term" && hasKey resp "definition" then normalizeTermDef resp
  else if hasKey resp "questions" then normalizeQuestions arguments resp
  else if hasKey resp "result" then normalizeResult resp
  else Except.ok [TextBlock.mk (jsonDumps (Json.obj resp))]

/-! ## Tool enablement and the `call_tool` pipeline -/

/-- `_is_tool_enabled`: `True` when `enabled_tools is None`, else Python
`tool_name in self.enabled_tools` (exact, case-sensitive string equality
against the list elements). -/
def isToolEnabled (enabledTools : Option (List String)) (name : String) : Bool :=
  match enabledTools with
  | none => true
  | some l => l.contains name

/-- The disabled-tool message
`f"Tool '{name}' is disabled. Enable it with --enabled-tools option."`. -/
def disabledMessage (name : String) : String :=
  "Tool " ++ squote ++ name ++ squote
    ++ " is disabled. Enable it with --enabled-tools option."

/-- The fixed text of the no-payload branch of `call_tool`. -/
def noResponseMessage : String := "Error: No response from upstream server"

/-- Body of the `call_tool` handler after logging: the enabled check, the
`if not response` truthiness test on the `Optional[Dict]` returned by
`_call_upstream` (`None` and the empty dict are both falsy), then the
response-shape chain.  `Except.error` models a Python exception escaping
to the handler boundary. -/
def callToolBody (enabledTools : Option (List String)) (name : String)
    (arguments : List (String × Json))
    (response : Option (List (String × Json))) :
    Except String (List TextBlock) :=
  if !(isToolEnabled enabledTools name) then
    Except.ok [TextBlock.mk (disabledMessage name)]
  else
    match response with
    | none => Except.ok [TextBlock.mk noResponseMessage]
    | some resp =>
        if resp.isEmpty then Except.ok [TextBlock.mk noResponseMessage]
        else normalizeResponse arguments resp

/-- The `call_tool` handler including its `except Exception` boundary: a
non-cancellation exception becomes a single error text block naming the
tool. -/
def callTool (enabledTools : Option (List String)) (name : String)
    (arguments : List (String × Json))
    (response : Option (List (String × Json))) : List TextBlock :=
  match callToolBody enabledTools name arguments response with
  | Except.ok blocks => blocks
  | Except.error e => [TextBlock.mk ("Error calling tool " ++ name ++ ": " ++ e)]

/-! ## Upstream HTTP result handling (`_call_upstream`, lines 381-399) -/

/-- Outcome of one upstream HTTP round trip.  `parsed = none` models a 200
body that is not valid JSON (`json.JSONDecodeError`); the payload is a
dict per the declared return type `Optional[Dict[str, Any]]`. -/
inductive UpstreamOutcome where
  | httpResponse (status : Nat) (parsed : Option (List (String × Json)))
  | timeoutError
  | requestError (msg : String)

/-- `_call_upstream` result handling: non-200 status, invalid JSON,
timeout and transport errors all return `None`; a 200 with valid JSON
returns the decoded payload. -/
def callUpstreamResult : UpstreamOutcome → Option (List (String × Json))
  | UpstreamOutcome.httpResponse status parsed =>
      if status != 200 then none
      else match parsed with
        | some data => some data
        | none => none
  | UpstreamOutcome.timeoutError => none
  | UpstreamOutcome.requestError _ => none

/-- The `call_tool` pipeline fed by one upstream HTTP outcome. -/
def callToolOutcome (enabledTools : Option (List String)) (name : String)
    (arguments : List (String × Json)) (upstream : UpstreamOutcome) :
    List TextBlock :=
  callTool enabledTools name arguments (callUpstreamResult upstream)

/-! ## Tool catalog (`_validate_enabled_tools`, `_get_filtered_tools`) -/

/-- A parsed tool descriptor (`mcp.types.Tool`): `name` and `description`
are required string fields, `inputSchema` a dict. -/
structure ToolDescriptor where
  name : String
  description : String
  inputSchema : Json
deriving Repr

/-- `{tool['name'] for tool in upstream_tools}` collects each entry's
`name` (raising `KeyError`/`TypeError` on a malformed entry). -/
def upstreamToolNames : List Json → Except String (List Json)
  | [] => Except.ok []
  | t :: rest => do
      let n ← (match t with
        | Json.obj fs => pyIndexField fs "name"
        | _ => Except.error "TypeError: not subscriptable")
      let ns ← upstreamToolNames rest
      Except.ok (n :: ns)

/-- `_validate_enabled_tools`: with a non-null allow-list, raise
`ValueError` naming the enabled tools absent from the upstream catalog.
(The source joins a Python set, whose order is unspecified; the model
keeps the allow-list order.) -/
def validateEnabledTools (enabledTools : Option (List String))
    (upstreamTools : List Json) : Except String Unit :=
  match enabledTools with
  | none => Except.ok ()
  | some enabled => do
      let names ← upstreamToolNames upstreamTools
      let unknown := enabled.filter (fun e => !(names.contains (Json.str e)))
      if !unknown.isEmpty then
        Except.error ("Unknown tools specified: " ++ String.intercalate ", " unknown)
      else
        Except.ok ()

/-- `Tool(name=..., description=..., inputSchema=tool_data.get("inputSchema", {}))`
inside the per-entry `try`. -/
def parseTool (td : Json) : Except String ToolDescriptor := do
  let n ← (match td with
    | Json.obj fs => pyIndexField fs "name"
    | _ => Except.error "TypeError: not subscriptable")
  let d ← (match td with
    | Json.obj fs => pyIndexField fs "description"
    | _ => Except.error "TypeError: not subscriptable")
  let s ← pyGetAttrD td "inputSchema" (Json.obj [])
  match n, d, s with
  | Json.str ns, Json.str ds, Json.obj sf =>
      Except.ok (ToolDescriptor.mk ns ds (Json.obj sf))
  | _, _, _ => Except.error "ValidationError"

/-- The filter loop of `_get_filtered_tools`: skip entries not in the
allow-list (`tool_data['name']` is read outside the `try`, so a malformed
entry raises when filtering is active); parse failures are skipped. -/
def filterToolsLoop (enabledTools : Option (List String)) :
    List Json → Except String (List ToolDescriptor)
  | [] => Except.ok []
  | td :: rest => do
      let skip ← (match enabledTools with
        | none => Except.ok false
        | some enabled => do
            let n ← (match td with
              | Json.obj fs => pyIndexField fs "name"
              | _ => Except.error "TypeError: not subscriptable")
            Except.ok (!(enabled.any (fun e => n == Json.str e))))
      if skip then
        filterToolsLoop enabledTools rest
      else
        match parseTool td with
        | Except.ok t => do
            let ts ← filterToolsLoop enabledTools rest
            Except.ok (t :: ts)
        | Except.error _ => filterToolsLoop enabledTools rest

/-- `_get_filtered_tools`, as a function of the upstream `tools/list`
payload: an absent or falsy payload, or one without a `tools` key, yields
the empty catalog; otherwise the allow-list is validated (on EVERY call —
the source keeps no already-validated flag) and the entries are filtered
and parsed. -/
def getFilteredTools (enabledTools : Option (List String))
    (upstreamResponse : Option (List (String × Json))) :
    Except String (List ToolDescriptor) :=
  match upstreamResponse with
  | none => Except.ok []
  | some resp =>
      if resp.isEmpty || !(hasKey resp "tools") then Except.ok []
      else do
        let upstreamTools ← pyIterate ((lookupField resp "tools").getD Json.null)
        validateEnabledTools enabledTools upstreamTools
        filterToolsLoop enabledTools upstreamTools

/-- A sequence of `list_tools` catalog fetches within one process
lifetime: the handler closes over the immutable configuration only, so
each fetch applies the same stateless function to the catalog the
upstream returns at that moment. -/
def listFetchTrace (enabledTools : Option (List String))
    (catalogs : List (Option (List (String × Json)))) :
    List (Except String (List ToolDescriptor)) :=
  catalogs.map (getFilteredTools enabledTools)

/-! ## Callback exception boundaries (`list_tools` / `call_tool`) -/

/-- Result of running a handler body: normal value, cancellation signal
(`asyncio.CancelledError`), or an application exception. -/
inductive PyResult (α : Type) where
  | ok (value : α)
  | cancelled
  | exc (msg : String)

/-- The `try/except` boundary of the `list_tools` callback:
`except asyncio.CancelledError: raise` precedes
`except Exception: return []`. -/
def listToolsCallback (inner : PyResult (List ToolDescriptor)) :
    PyResult (List ToolDescriptor) :=
  match inner with
  | PyResult.ok ts => PyResult.ok ts
  | PyResult.cancelled => PyResult.cancelled
  | PyResult.exc _ => PyResult.ok []

/-- The `try/except` boundary of the `call_tool` callback:
cancellation is re-raised, any other exception becomes one error block. -/
def callToolCallback (name : String) (inner : PyResult (List TextBlock)) :
    PyResult (List TextBlock) :=
  match inner with
  | PyResult.ok bs => PyResult.ok bs
  | PyResult.cancelled => PyResult.cancelled
  | PyResult.exc e => PyResult.ok [TextBlock.mk ("Error calling tool " ++ name ++ ": " ++ e)]

/-! ## Spec-modelled components

Two configuration features of this repository — `hiddenParams`
(schema redaction, spec §4.3, exercised by
`tests/test_parameter_hiding.py`) and `filterBookChapterNotes`
(note filtering, spec §4.4, exercised by `tests/test_note_filtering.py`)
— are absent from the provided `mcp_proxy_server.py`; only their tests and
the spec describe them.  They are modelled here from the spec. -/

/-- Removal of the hidden parameter names from an `inputSchema.properties`
object (a non-object value is left unchanged). -/
def removePropsKeys (hiddenParams : List String) : Json → Json
  | Json.obj fs => Json.obj (fs.filter (fun f => !(hiddenParams.contains f.1)))
  | v => v

/-- Removal of the hidden parameter names from an `inputSchema.required`
array of strings (non-string members and non-array values are left
unchanged). -/
def removeRequiredNames (hiddenParams : List String) : Json → Json
  | Json.arr xs => Json.arr (xs.filter (fun x =>
      match x with
      | Json.str s => !(hiddenParams.contains s)
      | _ => true))
  | v => v

/-- Mapping each field of a dict through a key-dependent value function
(keys are preserved). -/
def mapFields (g : String → Json → Json) (fs : List (String × Json)) :
    List (String × Json) :=
  fs.map (fun f => (f.1, g f.1 f.2))

/-- The redaction applied to one schema field: `properties` and `required`
are rewritten, every other field is kept as is. -/
def hideSchemaField (hiddenParams : List String) (key : String) (v : Json) : Json :=
  if key == "properties" then removePropsKeys hiddenParams v
  else if key == "required" then removeRequiredNames hiddenParams v
  else v

/-- Modelled from the spec: the `hiddenParams` redaction step of the Tool
Catalog Filter is missing from the provided source (only
`tests/test_parameter_hiding.py` constructs `MCPProxyServer` with
`hidden_params=...`).  Spec §4.3: for each kept entry, remove any schema
property named in `hiddenParams` from `inputSchema.properties` and from
`inputSchema.required` if present, leaving all other fields untouched. -/
def hideSchemaParams (hiddenParams : List String)
    (schema : List (String × Json)) : List (String × Json) :=
  mapFields (hideSchemaField hiddenParams) schema

/-- A `Reference` value of the form `{chapter}:intro` (a non-empty
chapter number, a colon, and the word `intro`). -/
def isChapterIntroRef (ref : String) : Bool :=
  match ref.toList.splitOn (Char.ofNat 58) with
  | [chapter, trailer] =>
      trailer == "intro".toList && !chapter.isEmpty && chapter.all Char.isDigit
  | _ => false

/-- A note item to be dropped: its `Reference` equals `front:intro` or
matches `{chapter}:intro`. -/
def isBookOrChapterIntroRef (ref : String) : Bool :=
  ref == "front:intro" || isChapterIntroRef ref

/-- Whether a note item is kept by the filter (items without a string
`Reference` are kept). -/
def keepNoteItem (item : Json) : Bool :=
  match item with
  | Json.obj fs =>
      match lookupField fs "Reference" with
      | some (Json.str r) => !(isBookOrChapterIntroRef r)
      | _ => true
  | _ => true

/-- The filtering applied to one payload field: the `items` list is
filtered, every other field is kept as is. -/
def filterNotesField (key : String) (v : Json) : Json :=
  if key == "items" then
    match v with
    | Json.arr xs => Json.arr (xs.filter keepNoteItem)
    | v => v
  else v

/-- Modelled from the spec: the `filterBookChapterNotes` post-processing
step on `fetch_translation_notes` responses is missing from the provided
source (only `tests/test_note_filtering.py` exercises it).  Spec §4.4:
before normalization, drop any note item whose `Reference` equals
`front:intro` or matches the pattern `{chapter}:intro`, leaving
verse-specific entries and all non-`items` metadata fields untouched. -/
def filterBookChapterNotes (resp : List (String × Json)) :
    List (String × Json) :=
  mapFields filterNotesField resp

/-! ## General lemmas -/

theorem buildQuery_eq_filterMap (toolArgs : List (String × Json))
    (keys : List String) :
    buildQuery toolArgs keys
      = keys.filterMap (fun k => (lookupField toolArgs k).map (fun v => (k, v))) := by
  have h : ∀ (ks : List String) (acc : List (String × Json)),
      ks.foldl (fun qp k => addParam toolArgs k qp) acc
        = acc ++ ks.filterMap (fun k => (lookupField toolArgs k).map (fun v => (k, v))) := by
    intro ks
    induction ks with
    | nil => intro acc; simp
    | cons k ks ih =>
        intro acc
        simp only [List.foldl_cons, List.filterMap_cons]
        rw [ih]
        cases hl : lookupField toolArgs k with
        | none => simp [addParam, hl]
        | some v => simp [addParam, hl]
  simpa [buildQuery] using h keys []

theorem mem_buildQuery (toolArgs : List (String × Json)) (keys : List String)
    (k : String) (v : Json) :
    (k, v) ∈ buildQuery toolArgs keys
      ↔ k ∈ keys ∧ lookupField toolArgs k = some v := by
  rw [buildQuery_eq_filterMap]
  simp only [List.mem_filterMap, Option.map_eq_some', Prod.mk.injEq]
  constructor
  · rintro ⟨a, ha, w, hw, rfl, rfl⟩
    exact ⟨ha, hw⟩
  · rintro ⟨hk, hv⟩
    exact ⟨k, hk, v, hv, rfl, rfl⟩

/-- Claim C1: for every tool name in the static lookup table and every
argument map, the endpoint router issues a GET to the documented endpoint
path, and the forwarded query parameters are exactly the pairs whose key
is admitted for that tool and present in the argument map, the value
copied 1:1 under the same name; every other argument key is dropped. -/
theorem endpoint_router_matches_documented_table
    (t p : String) (admitted : List String)
    (hmem : (t, p, admitted) ∈ documentedRouteTable)
    (upstreamUrl : String) (toolArgs : List (String × Json)) :
    (routeToolCall upstreamUrl t toolArgs).httpMethod = "GET" ∧
    (routeToolCall upstreamUrl t toolArgs).url
      = upstreamUrl.replace "/api/mcp" "" ++ p ∧
    ∀ k v, (k, v) ∈ (routeToolCall upstreamUrl t toolArgs).queryParams
      ↔ (k ∈ admitted ∧ lookupField toolArgs k = some v) := by
  simp only [documentedRouteTable, List.mem_cons, List.not_mem_nil, or_false,
    Prod.mk.injEq] at hmem
  rcases hmem with h | h | h | h | h | h | h | h <;>
    obtain ⟨rfl, rfl, rfl⟩ := h <;>
    exact ⟨rfl, rfl, fun k v => mem_buildQuery toolArgs _ k v⟩

/-- A concrete argument map with one admitted key and one bogus key. -/
def c1Args : List (String × Json) :=
  [("reference", Json.str "John 3:16"), ("bogus", Json.str "x")]

/-- Witness for C1: `fetch_scripture` with a `reference` and a `bogus`
argument — the admitted `reference` pair is forwarded 1:1. -/
theorem endpoint_router_matches_documented_table_witness :
    (("fetch_scripture", "/api/fetch-scripture",
        ["reference", "language", "organization"]) ∈ documentedRouteTable) ∧
    (routeToolCall "https://translation-helps-mcp.pages.dev/api/mcp"
        "fetch_scripture" c1Args).httpMethod = "GET" ∧
    ((("reference", Json.str "John 3:16") ∈
        (routeToolCall "https://translation-helps-mcp.pages.dev/api/mcp"
          "fetch_scripture" c1Args).queryParams)
      ↔ ("reference" ∈ ["reference", "language", "organization"] ∧
          lookupField c1Args "reference" = some (Json.str "John 3:16"))) :=
  ⟨by decide,
   (endpoint_router_matches_documented_table "fetch_scripture"
     "/api/fetch-scripture" ["reference", "language", "organization"]
     (by decide) "https://translation-helps-mcp.pages.dev/api/mcp" c1Args).1,
   (endpoint_router_matches_documented_table "fetch_scripture"
     "/api/fetch-scripture" ["reference", "language", "organization"]
     (by decide) "https://translation-helps-mcp.pages.dev/api/mcp" c1Args).2.2
     "reference" (Json.str "John 3:16")⟩

theorem hasKey_cons (k : String) (v : Json) (rest : List (String × Json))
    (key : String) :
    hasKey ((k, v) :: rest) key = ((k == key) || hasKey rest key) := rfl

theorem lookupField_cons (k : String) (v : Json) (rest : List (String × Json))
    (key : String) :
    lookupField ((k, v) :: rest) key
      = if k == key then some v else lookupField rest key := rfl

theorem hasKey_iff_lookupField (resp : List (String × Json)) (key : String) :
    hasKey resp key = true ↔ (lookupField resp key).isSome := by
  induction resp with
  | nil => simp [hasKey, lookupField]
  | cons f rest ih =>
      obtain ⟨k, v⟩ := f
      rw [hasKey_cons, lookupField_cons]
      by_cases h : (k == key) = true
      · simp [h]
      · have hb : (k == key) = false := by simpa using h
        simp [hb, ih]

/-- Removal of one key from a dict payload, used to state that a branch of
the normalizer ignores the removed key. -/
def dropKey (resp : List (String × Json)) (key : String) :
    List (String × Json) :=
  resp.filter (fun f => !(f.1 == key))

theorem lookupField_dropKey_ne (resp : List (String × Json))
    (key other : String) (h : other ≠ key) :
    lookupField (dropKey resp key) other = lookupField resp other := by
  induction resp with
  | nil => rfl
  | cons f rest ih =>
      obtain ⟨k, v⟩ := f
      by_cases hk : k = key
      · subst hk
        have hb : (k == other) = false := by
          simpa using fun he => h he.symm
        simp [dropKey, List.filter_cons, lookupField, hb, ih]
        exact ih
      · have hb : (k == key) = false := by simpa using hk
        by_cases ho : k = other
        · subst ho
          simp [dropKey, List.filter_cons, hb, lookupField]
        · have hbo : (k == other) = false := by simpa using ho
          simp [dropKey, List.filter_cons, hb, lookupField, hbo]
          exact ih

theorem normalizeContent_congr (r1 r2 : List (String × Json))
    (h : lookupField r1 "content" = lookupField r2 "content") :
    normalizeContent r1 = normalizeContent r2 := by
  simp [normalizeContent, pyIndexField, h]

/-- Claim C2: the response shapes are probed in the fixed priority order
with `content` first; for every payload containing a `content` key, the
output is that of the content path alone — in particular the `scripture`
key (present or not) is irrelevant: removing it does not change the
result. -/
theorem normalizer_content_shape_wins (arguments resp : List (String × Json))
    (h : hasKey resp "content" = true) :
    normalizeResponse arguments resp = normalizeContent resp ∧
    normalizeResponse arguments (dropKey resp "scripture")
      = normalizeContent resp ∧
    (∀ items blocks, lookupField resp "content" = some (Json.arr items) →
      contentItems items = Except.ok blocks →
      normalizeResponse arguments resp
        = Except.ok (if blocks.isEmpty then [TextBlock.mk "Empty response"]
            else blocks)) := by
  have hlk : lookupField (dropKey resp "scripture") "content"
      = lookupField resp "content" :=
    lookupField_dropKey_ne resp "scripture" "content" (by decide)
  have h2 : hasKey (dropKey resp "scripture") "content" = true := by
    rw [hasKey_iff_lookupField, hlk, ← hasKey_iff_lookupField]
    exact h
  have hmain : normalizeResponse arguments resp = normalizeContent resp := by
    simp [normalizeResponse, h]
  refine ⟨hmain, ?_, ?_⟩
  · rw [normalizeResponse]
    simp only [h2, if_true]
    exact normalizeContent_congr _ _ hlk
  · intro items blocks hl hc
    have hp : pyIndexField resp "content" = Except.ok (Json.arr items) := by
      simp [pyIndexField, hl]
    have hv : normalizeContent resp = normalizeContentVal (Json.arr items) := by
      show (pyIndexField resp "content" >>= fun v => normalizeContentVal v) = _
      rw [hp]
      rfl
    have ha : normalizeContentVal (Json.arr items)
        = (contentItems items).map (fun bs =>
            if bs.isEmpty then [TextBlock.mk "Empty response"] else bs) := by
      show (contentItems items >>= fun blocks =>
          Except.ok (if blocks.isEmpty then [TextBlock.mk "Empty response"]
            else blocks)) = _
      cases hci : contentItems items <;> rfl
    rw [hmain, hv, ha, hc]
    rfl

/-- A concrete payload carrying both a `content` and a `scripture` key. -/
def c2Resp : List (String × Json) :=
  [("content", Json.arr [Json.obj [("type", Json.str "text"),
      ("text", Json.str "Hello")]]),
   ("scripture", Json.arr [Json.obj [("text", Json.str "For God so loved"),
      ("translation", Json.str "ULT")]])]

/-- Witness for C2: on a payload with both `content` and `scripture`, the
normalizer output is the content-path output. -/
theorem normalizer_content_shape_wins_witness :
    hasKey c2Resp "content" = true ∧
    normalizeResponse [] c2Resp = normalizeContent c2Resp ∧
    normalizeResponse [] c2Resp = Except.ok [TextBlock.mk "Hello"] :=
  ⟨rfl, (normalizer_content_shape_wins [] c2Resp rfl).1,
   ((normalizer_content_shape_wins [] c2Resp rfl).2.2
     [Json.obj [("type", Json.str "text"), ("text", Json.str "Hello")]]
     [TextBlock.mk "Hello"] rfl rfl)⟩

/-- Counterexample to claim C3 as stated: on an upstream failure
(no payload), `call_tool` returns the single fixed-text block
`"Error: No response from upstream server"`, which does NOT contain the
called tool's name (here `fetch_scripture`). -/
theorem upstream_failure_block_lacks_tool_name :
    callTool none "fetch_scripture" [] none = [TextBlock.mk noResponseMessage] ∧
    ¬ List.IsInfix "fetch_scripture".toList noResponseMessage.toList := by
  exact ⟨rfl, by decide⟩

/-- Claim C3 (amended): for every upstream HTTP failure — non-200 status,
timeout, transport failure or an undecodable 200 body, i.e. whenever no
payload is obtained — an enabled tool call returns exactly one TextBlock
with the fixed error text `"Error: No response from upstream server"`
(an error indication that does not name the tool), and no exception
escapes the handler to the transport layer. -/
theorem upstream_failure_single_error_block
    (enabledTools : Option (List String)) (name : String)
    (arguments : List (String × Json)) (upstream : UpstreamOutcome)
    (hEnabled : isToolEnabled enabledTools name = true)
    (hFail : callUpstreamResult upstream = none) :
    callToolBody enabledTools name arguments (callUpstreamResult upstream)
      = Except.ok [TextBlock.mk noResponseMessage] ∧
    callToolOutcome enabledTools name arguments upstream
      = [TextBlock.mk noResponseMessage] := by
  have hbody : callToolBody enabledTools name arguments
      (callUpstreamResult upstream) = Except.ok [TextBlock.mk noResponseMessage] := by
    rw [hFail]
    simp [callToolBody, hEnabled]
  refine ⟨hbody, ?_⟩
  simp [callToolOutcome, callTool, hbody]

/-- Witness for C3 (amended): an HTTP 500 response. -/
theorem upstream_failure_single_error_block_witness :
    isToolEnabled (some ["fetch_scripture"]) "fetch_scripture" = true ∧
    callUpstreamResult (UpstreamOutcome.httpResponse 500
      (some [("error", Json.str "Internal Server Error")])) = none ∧
    callToolOutcome (some ["fetch_scripture"]) "fetch_scripture" []
      (UpstreamOutcome.httpResponse 500
        (some [("error", Json.str "Internal Server Error")]))
      = [TextBlock.mk noResponseMessage] :=
  ⟨rfl, rfl,
   (upstream_failure_single_error_block (some ["fetch_scripture"])
     "fetch_scripture" []
     (UpstreamOutcome.httpResponse 500
       (some [("error", Json.str "Internal Server Error")]))
     rfl rfl).2⟩

/-- Claim C4: `_is_tool_enabled` is true iff the allow-list is unset or
contains the name under exact string equality (so the explicit empty list
disables every tool), and a `call_tool` on a disabled tool returns the
single disabled-tool block for EVERY possible upstream response — the
result does not depend on the upstream at all, so no upstream request is
semantically observable. -/
theorem disabled_tool_short_circuits :
    (∀ name, isToolEnabled none name = true) ∧
    (∀ l name, isToolEnabled (some l) name = true ↔ name ∈ l) ∧
    (∀ name, isToolEnabled (some []) name = false) ∧
    (∀ enabledTools name arguments response,
      isToolEnabled enabledTools name = false →
      callTool enabledTools name arguments response
        = [TextBlock.mk (disabledMessage name)]) := by
  refine ⟨fun _ => rfl, ?_, fun _ => rfl, ?_⟩
  · intro l name
    exact List.elem_iff
  · intro enabledTools name arguments response hdis
    simp [callTool, callToolBody, hdis]

/-- Witness for C4: the explicit empty allow-list disables
`fetch_scripture`, and the call short-circuits to the disabled block. -/
theorem disabled_tool_short_circuits_witness :
    isToolEnabled (some []) "fetch_scripture" = false ∧
    callTool (some []) "fetch_scripture" [] none
      = [TextBlock.mk (disabledMessage "fetch_scripture")] ∧
    ("fetch_scripture" ∈ (["fetch_scripture"] : List String) ↔
      isToolEnabled (some ["fetch_scripture"]) "fetch_scripture" = true) :=
  ⟨disabled_tool_short_circuits.2.2.1 "fetch_scripture",
   disabled_tool_short_circuits.2.2.2 (some []) "fetch_scripture" [] none rfl,
   (disabled_tool_short_circuits.2.1 ["fetch_scripture"] "fetch_scripture").symm⟩

/-- Claim C9: a cancellation raised inside either callback propagates out
of the callback (the `except asyncio.CancelledError: raise` arm), and is
the only way a cancellation leaves the boundary; any other exception is
converted — into the empty tool list for `list_tools` and into a single
error block naming the tool for `call_tool`. -/
theorem cancellation_propagates_out_of_callbacks :
    (∀ r, listToolsCallback r = PyResult.cancelled ↔ r = PyResult.cancelled) ∧
    (∀ name r, callToolCallback name r = PyResult.cancelled
      ↔ r = PyResult.cancelled) ∧
    (∀ e, listToolsCallback (PyResult.exc e) = PyResult.ok []) ∧
    (∀ name e, callToolCallback name (PyResult.exc e)
      = PyResult.ok [TextBlock.mk ("Error calling tool " ++ name ++ ": " ++ e)]) := by
  refine ⟨?_, ?_, fun _ => rfl, fun _ _ => rfl⟩
  · intro r
    cases r <;> simp [listToolsCallback]
  · intro name r
    cases r <;> simp [callToolCallback]

/-- Claim C10: a 200 response decoding to the empty JSON object (a falsy
payload) produces the same single error block as an upstream failure, so
the fallback pretty-print shape of the normalizer — which would print
`"{}"` — is unreachable for the empty-object payload. -/
theorem empty_object_payload_treated_as_failure (name : String)
    (arguments : List (String × Json)) :
    callToolOutcome none name arguments
        (UpstreamOutcome.httpResponse 200 (some []))
      = [TextBlock.mk noResponseMessage] ∧
    callToolOutcome none name arguments
        (UpstreamOutcome.httpResponse 200 (some []))
      = callToolOutcome none name arguments UpstreamOutcome.timeoutError ∧
    [TextBlock.mk noResponseMessage]
      ≠ [TextBlock.mk (jsonDumps (Json.obj []))] :=
  ⟨rfl, rfl, by decide⟩

/-- A payload in which `notes` is present but maps to the empty list while
`items` is present and non-empty. -/
def c7Resp : List (String × Json) :=
  [("notes", Json.arr []),
   ("items", Json.arr [Json.obj [("Note", Json.str "hi")]])]

/-- Counterexample to claim C7 as stated: with `notes` present mapped to
`[]` and `items` present, the rendered output is determined by the
`items` value (a numbered note list), not by the `notes` value (which
would have produced the no-notes message) — `or` in the source selects by
truthiness, not by key presence. -/
theorem notes_key_presence_does_not_determine_output :
    normalizeResponse [] c7Resp
      = Except.ok [TextBlock.mk "Translation Notes for Reference:\n\n1. hi\n\n"] ∧
    normalizeResponse [] c7Resp
      ≠ Except.ok [TextBlock.mk "No translation notes found for this reference."] := by
  refine ⟨rfl, ?_⟩
  intro hEq
  rw [show normalizeResponse [] c7Resp
    = Except.ok [TextBlock.mk "Translation Notes for Reference:\n\n1. hi\n\n"]
    from rfl] at hEq
  simp at hEq

/-- Claim C7 (amended): in the notes shape, the rendered list is
`response.get("notes") or response.get("verseNotes") or
response.get("items", [])`, i.e. the first TRUTHY value among the three
(with `[]` as final default), not the value of the first present key; in
particular, when `notes` is present but maps to an empty (falsy) list and
`verseNotes` is absent or falsy, the `items` value determines the
output. -/
theorem notes_selected_by_truthiness (arguments resp : List (String × Json))
    (hc : hasKey resp "content" = false) (hs : hasKey resp "scripture" = false)
    (hn : hasKey resp "notes" = true) :
    normalizeResponse arguments resp
      = renderNotes arguments (selectedNotes resp) ∧
    (lookupField resp "notes" = some (Json.arr []) →
     truthy ((lookupField resp "verseNotes").getD Json.null) = false →
     selectedNotes resp = (lookupField resp "items").getD (Json.arr [])) := by
  constructor
  · simp [normalizeResponse, hc, hs, hn, normalizeNotes]
  · intro h1 h2
    have e1 : selectedNotes resp
        = pyOrJ ((lookupField resp "verseNotes").getD Json.null)
            ((lookupField resp "items").getD (Json.arr [])) := by
      unfold selectedNotes
      rw [h1]
      rfl
    rw [e1]
    unfold pyOrJ
    rw [h2]
    simp

/-- Witness for C7 (amended) at the concrete payload `c7Resp`. -/
theorem notes_selected_by_truthiness_witness :
    hasKey c7Resp "notes" = true ∧
    selectedNotes c7Resp = (lookupField c7Resp "items").getD (Json.arr []) :=
  ⟨rfl, (notes_selected_by_truthiness [] c7Resp rfl rfl rfl).2 rfl rfl⟩

/-- An upstream catalog containing `fetch_scripture`. -/
def c8CatalogA : Option (List (String × Json)) :=
  some [("tools", Json.arr [Json.obj
    [("name", Json.str "fetch_scripture"),
     ("description", Json.str "Fetch scripture text"),
     ("inputSchema", Json.obj [])]])]

/-- An upstream catalog (a later fetch) no longer containing
`fetch_scripture`. -/
def c8CatalogB : Option (List (String × Json)) :=
  some [("tools", Json.arr [Json.obj
    [("name", Json.str "other_tool"),
     ("description", Json.str "Something else"),
     ("inputSchema", Json.obj [])]])]

/-- Counterexample to claim C8 as stated: in a two-fetch trace whose first
fetch validates the allow-list successfully, the second fetch still
performs the membership check (and fails on a changed catalog) — the
source keeps no already-validated flag and revalidates on every catalog
fetch. -/
theorem enabled_tools_check_repeats_after_success :
    listFetchTrace (some ["fetch_scripture"]) [c8CatalogA, c8CatalogB]
      = [Except.ok [ToolDescriptor.mk "fetch_scripture" "Fetch scripture text"
           (Json.obj [])],
         Except.error "Unknown tools specified: fetch_scripture"] := rfl

/-- Claim C8 (amended): the membership check of `enabledTools` against the
upstream catalog names runs on EVERY catalog fetch, not only the first:
whenever validation of the currently fetched catalog fails, that fetch
fails with the configuration error — regardless of any earlier successful
fetches in the same process lifetime. -/
theorem enabled_tools_validated_on_every_fetch
    (enabledTools : Option (List String)) (resp : List (String × Json))
    (ts : List Json) (e : String)
    (h1 : resp.isEmpty = false) (h2 : hasKey resp "tools" = true)
    (h3 : pyIterate ((lookupField resp "tools").getD Json.null) = Except.ok ts)
    (h4 : validateEnabledTools enabledTools ts = Except.error e) :
    getFilteredTools enabledTools (some resp) = Except.error e ∧
    ∀ history, (listFetchTrace enabledTools (history ++ [some resp])).getLast?
      = some (Except.error e) := by
  have hmain : getFilteredTools enabledTools (some resp) = Except.error e := by
    rw [show getFilteredTools enabledTools (some resp)
      = (if resp.isEmpty || !(hasKey resp "tools") then
          Except.ok []
        else do
          let upstreamTools ← pyIterate ((lookupField resp "tools").getD Json.null)
          validateEnabledTools enabledTools upstreamTools
          filterToolsLoop enabledTools upstreamTools) from rfl]
    rw [h1, h2]
    simp only [Bool.not_true, Bool.or_false, if_false]
    rw [h3]
    show (validateEnabledTools enabledTools ts >>= fun _ =>
      filterToolsLoop enabledTools ts) = Except.error e
    rw [h4]
    rfl
  refine ⟨hmain, fun history => ?_⟩
  simp [listFetchTrace, List.map_append, hmain]

/-- The inner payload of `c8CatalogB`. -/
def c8RespB : List (String × Json) :=
  [("tools", Json.arr [Json.obj
    [("name", Json.str "other_tool"),
     ("description", Json.str "Something else"),
     ("inputSchema", Json.obj [])]])]

/-- Witness for C8 (amended): on a catalog without `fetch_scripture`, the
fetch fails with the configuration error naming it, even as the last of a
longer trace. -/
theorem enabled_tools_validated_on_every_fetch_witness :
    hasKey c8RespB "tools" = true ∧
    getFilteredTools (some ["fetch_scripture"]) (some c8RespB)
      = Except.error "Unknown tools specified: fetch_scripture" :=
  ⟨rfl,
   (enabled_tools_validated_on_every_fetch (some ["fetch_scripture"]) c8RespB
     [Json.obj [("name", Json.str "other_tool"),
       ("description", Json.str "Something else"),
       ("inputSchema", Json.obj [])]]
     "Unknown tools specified: fetch_scripture" rfl rfl rfl rfl).1⟩

theorem lookupField_mapFields (g : String → Json → Json)
    (fs : List (String × Json)) (key : String) :
    lookupField (mapFields g fs) key = (lookupField fs key).map (g key) := by
  induction fs with
  | nil => rfl
  | cons f rest ih =>
      obtain ⟨k, v⟩ := f
      by_cases h : (k == key) = true
      · have hk : k = key := by simpa using h
        subst hk
        simp [mapFields, lookupField_cons, h]
      · have hb : (k == key) = false := by simpa using h
        simpa [mapFields, lookupField_cons, hb] using ih

theorem hideSchemaField_id (hiddenParams : List String) (k : String) (v : Json)
    (hp : k = "properties" → ∀ ps, v = Json.obj ps → ∀ g ∈ ps, g.1 ∉ hiddenParams)
    (hr : k = "required" → ∀ xs, v = Json.arr xs →
      ∀ s, Json.str s ∈ xs → s ∉ hiddenParams) :
    hideSchemaField hiddenParams k v = v := by
  by_cases hk : k = "properties"
  · subst hk
    show removePropsKeys hiddenParams v = v
    cases v with
    | obj ps =>
        show Json.obj (ps.filter (fun f => !(hiddenParams.contains f.1)))
          = Json.obj ps
        congr 1
        apply List.filter_eq_self.mpr
        intro g hg
        simpa using hp rfl ps rfl g hg
    | null => rfl
    | bool b => rfl
    | num n => rfl
    | str s => rfl
    | arr xs => rfl
  · by_cases hk2 : k = "required"
    · subst hk2
      have hb1 : (("required" : String) == "properties") = false := by decide
      show (if ("required" : String) == "properties" then
          removePropsKeys hiddenParams v
        else if ("required" : String) == "required" then
          removeRequiredNames hiddenParams v
        else v) = v
      rw [show (("required" : String) == "properties") = false from rfl]
      show removeRequiredNames hiddenParams v = v
      cases v with
      | arr xs =>
          show Json.arr (xs.filter (fun x =>
            match x with
            | Json.str s => !(hiddenParams.contains s)
            | _ => true)) = Json.arr xs
          congr 1
          apply List.filter_eq_self.mpr
          intro x hx
          cases x with
          | str s => simpa using hr rfl xs rfl s hx
          | null => rfl
          | bool b => rfl
          | num n => rfl
          | obj fs => rfl
          | arr ys => rfl
      | null => rfl
      | bool b => rfl
      | num n => rfl
      | str s => rfl
      | obj fs => rfl
    · have hb1 : (k == "properties") = false := by simpa using hk
      have hb2 : (k == "required") = false := by simpa using hk2
      simp [hideSchemaField, hb1, hb2]

theorem hideSchemaParams_id (hiddenParams : List String)
    (schema : List (String × Json))
    (hp : ∀ f ∈ schema, f.1 = "properties" →
      ∀ ps, f.2 = Json.obj ps → ∀ g ∈ ps, g.1 ∉ hiddenParams)
    (hr : ∀ f ∈ schema, f.1 = "required" →
      ∀ xs, f.2 = Json.arr xs → ∀ s, Json.str s ∈ xs → s ∉ hiddenParams) :
    hideSchemaParams hiddenParams schema = schema := by
  induction schema with
  | nil => rfl
  | cons f rest ih =>
      obtain ⟨k, v⟩ := f
      have hhead : hideSchemaField hiddenParams k v = v :=
        hideSchemaField_id hiddenParams k v
          (fun hk ps hv g hg => hp (k, v) (List.mem_cons_self _ _) hk ps hv g hg)
          (fun hk xs hv s hs => hr (k, v) (List.mem_cons_self _ _) hk xs hv s hs)
      have htail := ih (fun f hf => hp f (List.mem_cons_of_mem _ hf))
        (fun f hf => hr f (List.mem_cons_of_mem _ hf))
      show (k, hideSchemaField hiddenParams k v)
          :: hideSchemaParams hiddenParams rest = (k, v) :: rest
      rw [hhead, htail]

/-- Claim C5 (spec-modelled): for every `hiddenParams` set and every tool
schema, each hidden parameter name is removed from
`inputSchema.properties` and from `inputSchema.required` (when present);
every other schema field is unchanged, and a schema that does not declare
any of the hidden parameters is left entirely unchanged. -/
theorem hidden_params_redaction (hiddenParams : List String)
    (schema : List (String × Json)) :
    (∀ props, lookupField schema "properties" = some (Json.obj props) →
      lookupField (hideSchemaParams hiddenParams schema) "properties"
        = some (Json.obj (props.filter (fun f =>
            !(hiddenParams.contains f.1))))) ∧
    (∀ req, lookupField schema "required" = some (Json.arr req) →
      lookupField (hideSchemaParams hiddenParams schema) "required"
        = some (Json.arr (req.filter (fun x =>
            match x with
            | Json.str s => !(hiddenParams.contains s)
            | _ => true)))) ∧
    (∀ key, key ≠ "properties" → key ≠ "required" →
      lookupField (hideSchemaParams hiddenParams schema) key
        = lookupField schema key) ∧
    ((∀ f ∈ schema, f.1 = "properties" →
        ∀ ps, f.2 = Json.obj ps → ∀ g ∈ ps, g.1 ∉ hiddenParams) →
     (∀ f ∈ schema, f.1 = "required" →
        ∀ xs, f.2 = Json.arr xs → ∀ s, Json.str s ∈ xs → s ∉ hiddenParams) →
     hideSchemaParams hiddenParams schema = schema) := by
  refine ⟨?_, ?_, ?_, hideSchemaParams_id hiddenParams schema⟩
  · intro props hlp
    rw [show hideSchemaParams hiddenParams schema
        = mapFields (hideSchemaField hiddenParams) schema from rfl,
      lookupField_mapFields, hlp]
    rfl
  · intro req hlr
    rw [show hideSchemaParams hiddenParams schema
        = mapFields (hideSchemaField hiddenParams) schema from rfl,
      lookupField_mapFields, hlr]
    rfl
  · intro key h1 h2
    rw [show hideSchemaParams hiddenParams schema
        = mapFields (hideSchemaField hiddenParams) schema from rfl,
      lookupField_mapFields]
    have hb1 : (key == "properties") = false := by simpa using h1
    have hb2 : (key == "required") = false := by simpa using h2
    cases lookupField schema key with
    | none => rfl
    | some v => simp [hideSchemaField, hb1, hb2]

/-- A concrete tool schema declaring `reference`, `language` and
`organization`. -/
def c5Schema : List (String × Json) :=
  [("type", Json.str "object"),
   ("properties", Json.obj
     [("reference", Json.obj [("type", Json.str "string")]),
      ("language", Json.obj [("type", Json.str "string")]),
      ("organization", Json.obj [("type", Json.str "string")])]),
   ("required", Json.arr [Json.str "reference", Json.str "language"])]

def c5Props : List (String × Json) :=
  [("reference", Json.obj [("type", Json.str "string")]),
   ("language", Json.obj [("type", Json.str "string")]),
   ("organization", Json.obj [("type", Json.str "string")])]

/-- Witness for C5: hiding `language` and `organization` removes exactly
those keys from `properties` (and the non-schema field `type` is
untouched). -/
theorem hidden_params_redaction_witness :
    lookupField c5Schema "properties" = some (Json.obj c5Props) ∧
    lookupField (hideSchemaParams ["language", "organization"] c5Schema)
        "properties"
      = some (Json.obj (c5Props.filter (fun f =>
          !((["language", "organization"] : List String).contains f.1)))) ∧
    lookupField (hideSchemaParams ["language", "organization"] c5Schema) "type"
      = lookupField c5Schema "type" :=
  ⟨rfl,
   (hidden_params_redaction ["language", "organization"] c5Schema).1 c5Props rfl,
   (hidden_params_redaction ["language", "organization"] c5Schema).2.2.1 "type"
     (by decide) (by decide)⟩

/-- Claim C6 (spec-modelled): with `filterBookChapterNotes` configured,
the `items` list of a `fetch_translation_notes` payload is filtered so
that every item whose `Reference` equals `front:intro` or matches
`{chapter}:intro` is dropped and every other item (e.g. `3:16`) is kept,
while all payload fields other than `items` are unchanged. -/
theorem note_filtering_drops_intro_items (resp : List (String × Json)) :
    (∀ items, lookupField resp "items" = some (Json.arr items) →
      lookupField (filterBookChapterNotes resp) "items"
        = some (Json.arr (items.filter keepNoteItem))) ∧
    (∀ (items : List Json) (item : Json), item ∈ items.filter keepNoteItem
      ↔ (item ∈ items ∧ keepNoteItem item = true)) ∧
    (∀ key, key ≠ "items" →
      lookupField (filterBookChapterNotes resp) key = lookupField resp key) ∧
    (∀ fs r, lookupField fs "Reference" = some (Json.str r) →
      (keepNoteItem (Json.obj fs) = true ↔ isBookOrChapterIntroRef r = false)) := by
  refine ⟨?_, ?_, ?_, ?_⟩
  · intro items hli
    rw [show filterBookChapterNotes resp = mapFields filterNotesField resp
        from rfl, lookupField_mapFields, hli]
    rfl
  · intro items item
    simp [List.mem_filter]
  · intro key h1
    rw [show filterBookChapterNotes resp = mapFields filterNotesField resp
        from rfl, lookupField_mapFields]
    have hb : (key == "items") = false := by simpa using h1
    cases lookupField resp key with
    | none => rfl
    | some v => simp [filterNotesField, hb]
  · intro fs r hlr
    simp [keepNoteItem, hlr]

/-- The item list of the spec scenario: book intro, chapter intro, and one
verse-specific note. -/
def c6Items : List Json :=
  [Json.obj [("Reference", Json.str "front:intro"),
    ("Note", Json.str "# Introduction to John")],
   Json.obj [("Reference", Json.str "3:intro"),
    ("Note", Json.str "# John 3 Chapter Introduction")],
   Json.obj [("Reference", Json.str "3:16"),
    ("Note", Json.str "For God so loved the world")]]

/-- A `fetch_translation_notes` payload carrying those items plus
metadata. -/
def c6Resp : List (String × Json) :=
  [("reference", Json.str "John 3:16"),
   ("language", Json.str "en"),
   ("items", Json.arr c6Items)]

/-- Witness for C6: the filtered item list retains only the `3:16` note,
and the `reference` metadata field is unchanged. -/
theorem note_filtering_drops_intro_items_witness :
    lookupField c6Resp "items" = some (Json.arr c6Items) ∧
    lookupField (filterBookChapterNotes c6Resp) "items"
      = some (Json.arr (c6Items.filter keepNoteItem)) ∧
    c6Items.filter keepNoteItem
      = [Json.obj [("Reference", Json.str "3:16"),
          ("Note", Json.str "For God so loved the world")]] ∧
    lookupField (filterBookChapterNotes c6Resp) "reference"
      = lookupField c6Resp "reference" :=
  ⟨rfl,
   (note_filtering_drops_intro_items c6Resp).1 c6Items rfl,
   rfl,
   (note_filtering_drops_intro_items c6Resp).2.2.1 "reference" (by decide)⟩
